import Mathlib

/-
Verification of the list-backed control state (controls/list_box.rs) and the
typed event payload model (events.rs) of the native-windows-gui excerpt.

The native list box widget is an external collaborator reached only through
send_message opcodes.  Each opcode the source uses is modelled as a pure
function on a small widget state (rendered rows plus the highlighted row),
following the platform's documented contract for that opcode:
  LB_ADDSTRING    appends the string as a new rendered row (the control is
                  created without the optional sorted style: forced_flags are
                  LBS_HASSTRINGS, LBS_NOTIFY, WS_BORDER, WS_CHILD, WS_VSCROLL);
  LB_RESETCONTENT removes every rendered row and the selection;
  LB_DELETESTRING removes the row at the given position, doing nothing when
                  the position is out of range;
  LB_GETCURSEL    reports the highlighted row, if any;
  LB_SETCURSEL    highlights a row in range, clears on the sentinel -1;
  LB_SELECTSTRING searches, case-insensitively, for a row that begins with
                  the sent string, starting at the row AFTER the wParam index
                  and wrapping around, selecting and returning the first hit;
  LB_GETCOUNT     reports the rendered row count;
  LB_INITSTORAGE  pre-allocates storage and has no observable effect on rows.
Aborts in the source (the unbound-handle check and Vec indexing) are modelled
by returning none.
-/

namespace NWG

/-- Rendered state of the native list box widget: the rows it currently
displays and the currently highlighted row, if any. -/
structure NativeListBox where
  rows : List String
  sel : Option Nat
deriving DecidableEq

/-- LB_ADDSTRING on a widget without the sorted style: append the row. -/
def lbAddString (w : NativeListBox) (s : String) : NativeListBox :=
  { w with rows := w.rows ++ [s] }

/-- LB_RESETCONTENT: remove every row; the selection disappears with them. -/
def lbResetContent (_w : NativeListBox) : NativeListBox :=
  { rows := [], sel := none }

/-- LB_DELETESTRING: delete the row at the given position; out of range is an
error the source ignores, so the widget is unchanged there. -/
def lbDeleteString (w : NativeListBox) (i : Nat) : NativeListBox :=
  { w with rows := w.rows.eraseIdx i }

/-- Lower-case an ASCII letter; models the case-insensitive comparison the
native widget applies during LB_SELECTSTRING. -/
def lowerChar (c : Char) : Char :=
  if 'A' ≤ c ∧ c ≤ 'Z' then Char.ofNat (c.toNat + 32) else c

/-- Does the first character list begin with the second argument as a prefix
of it?  (true when the first argument starts the second). -/
def beginsWith : List Char → List Char → Bool
  | [], _ => true
  | _ :: _, [] => false
  | a :: q, b :: r => a == b && beginsWith q r

/-- Case-insensitive test: does the rendered row begin with the query? -/
def rowMatch (q row : String) : Bool :=
  beginsWith (q.data.map lowerChar) (row.data.map lowerChar)

/-- Row visit order of LB_SELECTSTRING when wParam is 0: the search starts at
the row after index 0 and wraps around the end of the list. -/
def searchOrder (n : Nat) : List Nat :=
  (List.range n).map (fun k => (1 + k) % n)

/-- Does the row at position j of the rendered rows match the query? -/
def rowMatchAt (rows : List String) (q : String) (j : Nat) : Bool :=
  match rows[j]? with
  | some row => rowMatch q row
  | none => false

/-- LB_SELECTSTRING with wParam 0: select and return the first row, in the
wrapped visit order, that begins (case-insensitively) with the string. -/
def lbSelectString (w : NativeListBox) (q : String) : NativeListBox × Option Nat :=
  match (searchOrder w.rows.length).find? (rowMatchAt w.rows q) with
  | some j => ({ w with sel := some j }, some j)
  | none => (w, none)

/-- LB_SETCURSEL: none models the sentinel -1, which clears the highlight;
an in-range index highlights that row; anything else does nothing. -/
def lbSetCurSel (w : NativeListBox) (index : Option Nat) : NativeListBox :=
  match index with
  | none => { w with sel := none }
  | some i => if i < w.rows.length then { w with sel := some i } else w

/-- State of ListBox of D: the handle (bound or not) together with the host
collection behind the RefCell, and the native widget the handle points to. -/
structure ListBoxState (α : Type) where
  bound : Bool
  items : List α
  native : NativeListBox
deriving DecidableEq

/-- ListBox push: abort when unbound, otherwise send LB_ADDSTRING with the
display text of the item and append the item to the host collection. -/
def push (disp : α → String) (s : ListBoxState α) (item : α) : Option (ListBoxState α) :=
  if s.bound then
    some { s with
      native := lbAddString s.native (disp item),
      items := s.items ++ [item] }
  else none

/-- ListBox remove: abort when unbound, otherwise send LB_DELETESTRING for
the position, then remove and return the item at that position of the host
collection, aborting (as Vec remove does) when the index is out of range. -/
def remove (s : ListBoxState α) (index : Nat) : Option (α × ListBoxState α) :=
  if s.bound then
    let native := lbDeleteString s.native index
    match s.items[index]? with
    | some a => some (a, { s with native := native, items := s.items.eraseIdx index })
    | none => none
  else none

/-- ListBox selection: abort when unbound, otherwise LB_GETCURSEL. -/
def selection (s : ListBoxState α) : Option (Option Nat) :=
  if s.bound then some s.native.sel else none

/-- ListBox selection_string: abort when unbound, otherwise read the rendered
text of the highlighted row through LB_GETTEXTLEN and LB_GETTEXT (the native
widget only ever reports a highlighted row that it currently renders). -/
def selection_string (s : ListBoxState α) : Option (Option String) :=
  if s.bound then
    match s.native.sel with
    | none => some none
    | some idx => some s.native.rows[idx]?
  else none

/-- ListBox set_selection: abort when unbound, otherwise LB_SETCURSEL with
the index, or with the clearing sentinel when given none. -/
def set_selection (s : ListBoxState α) (index : Option Nat) : Option (ListBoxState α) :=
  if s.bound then some { s with native := lbSetCurSel s.native index } else none

/-- ListBox set_selection_string: abort when unbound, otherwise send
LB_SELECTSTRING with wParam 0 and the query, returning the found index. -/
def set_selection_string (s : ListBoxState α) (value : String) : Option (Option Nat × ListBoxState α) :=
  if s.bound then
    let r := lbSelectString s.native value
    some (r.2, { s with native := r.1 })
  else none

/-- Send LB_ADDSTRING for the display text of every item in order. -/
def addAll (disp : α → String) (l : List α) (w : NativeListBox) : NativeListBox :=
  l.foldl (fun acc item => lbAddString acc (disp item)) w

/-- ListBox sync: abort when unbound, otherwise LB_RESETCONTENT, then
LB_INITSTORAGE (no observable row effect), then LB_ADDSTRING for every item
of the host collection in order. -/
def sync (disp : α → String) (s : ListBoxState α) : Option (ListBoxState α) :=
  if s.bound then
    some { s with native := addAll disp s.items (lbResetContent s.native) }
  else none

/-- ListBox set_collection: abort when unbound, otherwise LB_RESETCONTENT,
LB_ADDSTRING for every new item in order, swap the host collection for the
new one and return the previous collection. -/
def set_collection (disp : α → String) (s : ListBoxState α) (col : List α) : Option (List α × ListBoxState α) :=
  if s.bound then
    some (s.items, { s with
      items := col,
      native := addAll disp col (lbResetContent s.native) })
  else none

/-- ListBox len: abort when unbound, otherwise LB_GETCOUNT, the rendered row
count of the native widget. -/
def len (s : ListBoxState α) : Option Nat :=
  if s.bound then some s.native.rows.length else none

/-- ListBox collection: a RefCell borrow of the host collection; the source
performs no bound check here. -/
def collection (s : ListBoxState α) : List α :=
  s.items

/-- ListBox collection_mut: a RefCell borrow_mut of the host collection; the
source performs no bound check here either. -/
def collection_mut (s : ListBoxState α) : List α :=
  s.items

/-- The mutating operations of the claim C1 sequence. -/
inductive ListOp (α : Type) where
  | push (a : α)
  | remove (i : Nat)
  | set_collection (l : List α)

/-- Run one mutating operation, keeping only the resulting state. -/
def runOp (disp : α → String) : ListOp α → ListBoxState α → Option (ListBoxState α)
  | .push a, s => push disp s a
  | .remove i, s => (remove s i).map Prod.snd
  | .set_collection l, s => (set_collection disp s l).map Prod.snd

/-- Run a sequence of mutating operations left to right. -/
def runOps (disp : α → String) : List (ListOp α) → ListBoxState α → Option (ListBoxState α)
  | [], s => some s
  | op :: rest, s => (runOp disp op s).bind (runOps disp rest)

theorem addAll_rows (disp : α → String) (l : List α) (w : NativeListBox) :
    (addAll disp l w).rows = w.rows ++ l.map disp := by
  induction l generalizing w with
  | nil => simp [addAll]
  | cons a t ih =>
    simp [addAll, List.foldl_cons] at ih ⊢
    rw [ih]
    simp [lbAddString]

theorem runOp_bound (disp : α → String) (op : ListOp α) (s s₁ : ListBoxState α)
    (h : runOp disp op s = some s₁) : s₁.bound = s.bound := by
  cases op with
  | push a =>
    unfold runOp push at h
    by_cases hb : s.bound <;> simp [hb] at h
    rw [← h]; exact hb.symm
  | remove i =>
    unfold runOp remove at h
    by_cases hb : s.bound <;> simp [hb] at h
    cases hx : s.items[i]? with
    | none => rw [hx] at h; simp at h
    | some a =>
      rw [hx] at h; simp at h
      rw [← h]; exact hb.symm
  | set_collection l =>
    unfold runOp set_collection at h
    by_cases hb : s.bound <;> simp [hb] at h
    rw [← h]; exact hb.symm

theorem runOps_bound (disp : α → String) (ops : List (ListOp α)) (s s₁ : ListBoxState α)
    (h : runOps disp ops s = some s₁) : s₁.bound = s.bound := by
  induction ops generalizing s with
  | nil => simp [runOps] at h; rw [h]
  | cons op rest ih =>
    simp [runOps, Option.bind_eq_some] at h
    rcases h with ⟨s', h1, h2⟩
    rw [ih s' h2, runOp_bound disp op s s' h1]

/-- C1: after any sequence of push, remove and set_collection operations on a
bound control, sync rebuilds the rendered rows as exactly the display text of
the host collection in order, so the rendered row count equals the collection
length and the row at every position i is the display of item i. -/
theorem c1_sync_restores_invariant (disp : α → String) (ops : List (ListOp α))
    (s s₁ : ListBoxState α) (hb : s.bound = true)
    (hrun : runOps disp ops s = some s₁) :
    ∃ s₂, sync disp s₁ = some s₂ ∧
      s₂.items = s₁.items ∧
      s₂.native.rows = s₁.items.map disp ∧
      s₂.native.rows.length = s₁.items.length ∧
      ∀ i : Nat, s₂.native.rows[i]? = (s₁.items[i]?).map disp := by
  have hb₁ : s₁.bound = true := by rw [runOps_bound disp ops s s₁ hrun, hb]
  refine ⟨{ s₁ with native := addAll disp s₁.items (lbResetContent s₁.native) }, ?_, rfl, ?_, ?_, ?_⟩
  · unfold sync; rw [hb₁]; simp
  · rw [addAll_rows]; simp [lbResetContent]
  · rw [addAll_rows]; simp [lbResetContent]
  · intro i
    rw [addAll_rows]
    simp [lbResetContent]

/-- Witness for C1 at a concrete run: a bound control with one stale rendered
row, after pushing 7 and 3, removing position 0, replacing the collection by
1, 2, 3 and pushing 9, syncs to rows 1, 2, 3, 9. -/
theorem c1_witness :
    ∃ s₂, sync (fun n => toString n)
        (⟨true, [1, 2, 3, 9], ⟨["1", "2", "3", "9"], none⟩⟩ : ListBoxState Nat) = some s₂ ∧
      s₂.items = [1, 2, 3, 9] ∧
      s₂.native.rows = [1, 2, 3, 9].map (fun n => toString n) ∧
      s₂.native.rows.length = ([1, 2, 3, 9] : List Nat).length ∧
      ∀ i : Nat, s₂.native.rows[i]? = (([1, 2, 3, 9] : List Nat)[i]?).map (fun n => toString n) :=
  c1_sync_restores_invariant (fun n => toString n)
    [ListOp.push 7, ListOp.push 3, ListOp.remove 0, ListOp.set_collection [1, 2, 3], ListOp.push 9]
    ⟨true, [], ⟨["stale"], some 0⟩⟩ ⟨true, [1, 2, 3, 9], ⟨["1", "2", "3", "9"], none⟩⟩
    rfl (by decide)

theorem mem_searchOrder (n j : Nat) (hj : j < n) : j ∈ searchOrder n := by
  unfold searchOrder
  rw [List.mem_map]
  cases j with
  | zero =>
    refine ⟨n - 1, List.mem_range.mpr (by omega), ?_⟩
    have h1 : 1 + (n - 1) = n := by omega
    rw [h1, Nat.mod_self]
  | succ j₀ =>
    refine ⟨j₀, List.mem_range.mpr (by omega), ?_⟩
    have h1 : 1 + j₀ = j₀ + 1 := by omega
    rw [h1, Nat.mod_eq_of_lt hj]

/-- Bound state used by the C2 counterexample: the rendered rows of the
worked example of the specification. -/
def c2exState : ListBoxState String :=
  ⟨true, ["Apple", "apricot", "Banana"], ⟨["Apple", "apricot", "Banana"], none⟩⟩

/-- C2 counterexample: over rendered rows Apple, apricot, Banana the query
ap selects and returns index 1 (apricot), not index 0 (Apple) as the claim
states, because the native search starts at the row after index 0. -/
theorem c2_counterexample :
    (set_selection_string c2exState "ap").map Prod.fst = some (some 1) ∧
    (set_selection_string c2exState "ap").map Prod.fst ≠ some (some 0) ∧
    (set_selection_string c2exState "ap").map (fun p => p.2.native.sel) = some (some 1) := by
  decide

/-- C2 amended: on a bound control, set_selection_string performs the native
case-insensitive begins-with search over the currently rendered rows in the
wrapped order that starts at the row after index 0; it returns none exactly
when no rendered row begins with the query, and when it returns some j the
row at position j begins with the query and is now selected. -/
theorem c2_amended (s : ListBoxState α) (q : String) (hb : s.bound = true) :
    ∃ r s', set_selection_string s q = some (r, s') ∧
      s'.items = s.items ∧
      s'.native.rows = s.native.rows ∧
      r = (searchOrder s.native.rows.length).find? (rowMatchAt s.native.rows q) ∧
      (r = none ↔ ∀ row ∈ s.native.rows, rowMatch q row = false) ∧
      (∀ j, r = some j → s'.native.sel = some j ∧
        ∃ row, s.native.rows[j]? = some row ∧ rowMatch q row = true) := by
  have hss : set_selection_string s q =
      some ((lbSelectString s.native q).2, { s with native := (lbSelectString s.native q).1 }) := by
    unfold set_selection_string
    simp [hb]
  cases hfind : (searchOrder s.native.rows.length).find? (rowMatchAt s.native.rows q) with
  | none =>
    have hlb : lbSelectString s.native q = (s.native, none) := by
      unfold lbSelectString; rw [hfind]
    refine ⟨none, { s with native := s.native }, ?_, rfl, rfl, rfl, ?_, ?_⟩
    · rw [hss, hlb]
    · refine ⟨fun _ row hrow => ?_, fun _ => rfl⟩
      have hall := List.find?_eq_none.mp hfind
      obtain ⟨i, hi, hig⟩ := List.getElem_of_mem hrow
      have hmem : i ∈ searchOrder s.native.rows.length := mem_searchOrder _ _ hi
      have hfalse := hall i hmem
      unfold rowMatchAt at hfalse
      rw [List.getElem?_eq_getElem hi, hig] at hfalse
      simpa using hfalse
    · intro j hj
      exact absurd hj (by simp)
  | some j =>
    have hlb : lbSelectString s.native q = ({ s.native with sel := some j }, some j) := by
      unfold lbSelectString; rw [hfind]
    refine ⟨some j, { s with native := { s.native with sel := some j } }, ?_, rfl, rfl, rfl, ?_, ?_⟩
    · rw [hss, hlb]
    · constructor
      · intro hcontra; exact absurd hcontra (by simp)
      · intro hall
        have hp := List.find?_some hfind
        unfold rowMatchAt at hp
        cases hx : s.native.rows[j]? with
        | none => rw [hx] at hp; simp at hp
        | some row =>
          rw [hx] at hp
          simp at hp
          have hrowmem : row ∈ s.native.rows := List.getElem?_mem hx
          rw [hall row hrowmem] at hp
          exact absurd hp (by simp)
    · intro j₁ hj₁
      have hjj : j = j₁ := by simpa using hj₁
      subst hjj
      have hp := List.find?_some hfind
      unfold rowMatchAt at hp
      cases hx : s.native.rows[j]? with
      | none => rw [hx] at hp; simp at hp
      | some row =>
        rw [hx] at hp
        simp at hp
        exact ⟨rfl, row, rfl, hp⟩

/-- Bound state used by the C2 witness. -/
def c2witState : ListBoxState Nat :=
  ⟨true, [], ⟨["Banana", "Cherry"], none⟩⟩

/-- Witness for C2 amended at a concrete bound state with rendered rows
Banana and Cherry. -/
theorem c2_amended_witness :
    ∃ r s', set_selection_string c2witState "che" = some (r, s') ∧
      s'.items = c2witState.items ∧
      s'.native.rows = c2witState.native.rows ∧
      r = (searchOrder c2witState.native.rows.length).find? (rowMatchAt c2witState.native.rows "che") ∧
      (r = none ↔ ∀ row ∈ c2witState.native.rows, rowMatch "che" row = false) ∧
      (∀ j, r = some j → s'.native.sel = some j ∧
        ∃ row, c2witState.native.rows[j]? = some row ∧ rowMatch "che" row = true) :=
  c2_amended c2witState "che" rfl

/-- C3: on a bound control, remove at an in-range index returns exactly the
item previously at that position of the host collection, leaves the host
collection equal to the prior collection with that position deleted, and
deletes the native rendered row at that same position. -/
theorem c3_remove (s : ListBoxState α) (i : Nat) (hb : s.bound = true)
    (hi : i < s.items.length) :
    ∃ s', remove s i = some (s.items.get ⟨i, hi⟩, s') ∧
      s'.bound = true ∧
      s'.items = s.items.eraseIdx i ∧
      s'.native.rows = s.native.rows.eraseIdx i := by
  refine ⟨{ s with native := lbDeleteString s.native i, items := s.items.eraseIdx i },
    ?_, hb, rfl, rfl⟩
  unfold remove
  simp [hb, List.getElem?_eq_getElem hi, List.get_eq_getElem]

/-- Bound three-item state of the worked example of the specification. -/
def c3witState : ListBoxState String :=
  ⟨true, ["a", "b", "c"], ⟨["a", "b", "c"], none⟩⟩

/-- Witness for C3 on the collection a, b, c at index 1. -/
theorem c3_witness :
    ∃ s', remove c3witState 1 = some (c3witState.items.get ⟨1, by decide⟩, s') ∧
      s'.bound = true ∧
      s'.items = c3witState.items.eraseIdx 1 ∧
      s'.native.rows = c3witState.native.rows.eraseIdx 1 :=
  c3_remove c3witState 1 rfl (by decide)

/-- C4: on a bound control, set_collection returns exactly the previously
held collection, afterwards collection yields the new one, and the rendered
rows are rebuilt as the display text of the new items in order. -/
theorem c4_set_collection (disp : α → String) (s : ListBoxState α) (col : List α)
    (hb : s.bound = true) :
    ∃ s', set_collection disp s col = some (s.items, s') ∧
      s'.bound = true ∧
      s'.items = col ∧
      collection s' = col ∧
      s'.native.rows = col.map disp := by
  refine ⟨{ s with items := col, native := addAll disp col (lbResetContent s.native) },
    ?_, hb, rfl, rfl, ?_⟩
  · unfold set_collection
    simp [hb]
  · rw [addAll_rows]
    simp [lbResetContent]

/-- Bound state used by the C4 witness. -/
def c4witState : ListBoxState Nat :=
  ⟨true, [1, 2], ⟨["1", "2"], some 0⟩⟩

/-- Witness for C4 replacing the collection 1, 2 by 7, 8, 9. -/
theorem c4_witness :
    ∃ s', set_collection (fun n => toString n) c4witState [7, 8, 9] = some (c4witState.items, s') ∧
      s'.bound = true ∧
      s'.items = [7, 8, 9] ∧
      collection s' = [7, 8, 9] ∧
      s'.native.rows = [7, 8, 9].map (fun n => toString n) :=
  c4_set_collection (fun n => toString n) c4witState [7, 8, 9] rfl

/-- C6: push on an unbound control aborts; push on a bound control appends
the item to the end of the host collection; remove at an index equal to the
current collection length aborts. -/
theorem c6_push_remove (disp : α → String) (s : ListBoxState α) (a : α) :
    (s.bound = false → push disp s a = none) ∧
    (s.bound = true → ∃ s', push disp s a = some s' ∧ s'.items = s.items ++ [a]) ∧
    remove s s.items.length = none := by
  refine ⟨?_, ?_, ?_⟩
  · intro hu
    unfold push
    simp [hu]
  · intro hb
    refine ⟨{ s with native := lbAddString s.native (disp a), items := s.items ++ [a] }, ?_, rfl⟩
    unfold push
    simp [hb]
  · unfold remove
    by_cases hb : s.bound
    · rw [List.getElem?_eq_none (Nat.le_refl _)]
      simp [hb]
    · simp [hb]

/-- Unbound state used by the C6 witness. -/
def c6ubState : ListBoxState Nat :=
  ⟨false, [], ⟨[], none⟩⟩

/-- Bound one-item state used by the C6 witness. -/
def c6bState : ListBoxState Nat :=
  ⟨true, [7], ⟨["7"], none⟩⟩

/-- Witness for C6: push 3 on an unbound control aborts, push 3 on a bound
control holding 7 appends it, and remove at index 1 of the one-item bound
control aborts. -/
theorem c6_witness :
    push (fun n => toString n) c6ubState 3 = none ∧
    (∃ s', push (fun n => toString n) c6bState 3 = some s' ∧ s'.items = c6bState.items ++ [3]) ∧
    remove c6bState 1 = none :=
  ⟨(c6_push_remove (fun n => toString n) c6ubState 3).1 rfl,
   (c6_push_remove (fun n => toString n) c6bState 3).2.1 rfl,
   (c6_push_remove (fun n => toString n) c6bState 3).2.2⟩

/-- Window style constant WS_VISIBLE. -/
def WS_VISIBLE : Nat := 0x10000000

/-- List box style constant LBS_HASSTRINGS. -/
def LBS_HASSTRINGS : Nat := 0x40

/-- List box style constant LBS_NOTIFY. -/
def LBS_NOTIFY : Nat := 0x1

/-- Window style constant WS_BORDER. -/
def WS_BORDER : Nat := 0x800000

/-- Window style constant WS_CHILD. -/
def WS_CHILD : Nat := 0x40000000

/-- Window style constant WS_VSCROLL. -/
def WS_VSCROLL : Nat := 0x200000

/-- Ambient native window properties read by the mechanical one-line
wrappers of the control (font handle, focus, enabled, visibility, size and
position of the bound widget). -/
structure NativeEnv where
  font : Option Nat
  focus : Bool
  enabled : Bool
  visible : Bool
  winSize : Nat × Nat
  winPos : Int × Int
deriving DecidableEq

/-- One constructor for every public operation of ListBox. -/
inductive PubOp (α : Type) where
  | push (a : α)
  | remove (i : Nat)
  | selection
  | selection_string
  | set_selection (i : Option Nat)
  | set_selection_string (q : String)
  | sync
  | set_collection (l : List α)
  | len
  | font
  | set_font (f : Option Nat)
  | focus
  | set_focus
  | enabled
  | set_enabled (b : Bool)
  | visible
  | set_visible (b : Bool)
  | size
  | set_size (x y : Nat)
  | position
  | set_position (x y : Int)
  | collection
  | collection_mut
  | class_name
  | flags
  | forced_flags
deriving DecidableEq

/-- Result of one public operation of ListBox. -/
inductive PubResult (α : Type) where
  | unitR
  | itemR (a : α)
  | optIdxR (o : Option Nat)
  | optTextR (o : Option String)
  | itemsR (l : List α)
  | countR (n : Nat)
  | optFontR (o : Option Nat)
  | boolR (b : Bool)
  | sizeR (p : Nat × Nat)
  | posR (p : Int × Int)
  | nameR (o : Option String)
  | flagsR (p : Nat × Nat)
  | styleR (n : Nat)
deriving DecidableEq

/-- Run one public operation of ListBox.  Every method of the source that
reaches the native widget first aborts when the handle is blank; collection
and collection_mut only borrow the RefCell, and class_name, flags and
forced_flags only return creation metadata, all without a bound check. -/
def runPubOp (env : NativeEnv) (disp : α → String) :
    PubOp α → ListBoxState α → Option (PubResult α × ListBoxState α)
  | .push a, s => (push disp s a).map (fun s' => (.unitR, s'))
  | .remove i, s => (remove s i).map (fun p => (.itemR p.1, p.2))
  | .selection, s => (selection s).map (fun o => (.optIdxR o, s))
  | .selection_string, s => (selection_string s).map (fun o => (.optTextR o, s))
  | .set_selection i, s => (set_selection s i).map (fun s' => (.unitR, s'))
  | .set_selection_string q, s => (set_selection_string s q).map (fun p => (.optIdxR p.1, p.2))
  | .sync, s => (sync disp s).map (fun s' => (.unitR, s'))
  | .set_collection l, s => (set_collection disp s l).map (fun p => (.itemsR p.1, p.2))
  | .len, s => (len s).map (fun n => (.countR n, s))
  | .font, s => if s.bound then some (.optFontR env.font, s) else none
  | .set_font _, s => if s.bound then some (.unitR, s) else none
  | .focus, s => if s.bound then some (.boolR env.focus, s) else none
  | .set_focus, s => if s.bound then some (.unitR, s) else none
  | .enabled, s => if s.bound then some (.boolR env.enabled, s) else none
  | .set_enabled _, s => if s.bound then some (.unitR, s) else none
  | .visible, s => if s.bound then some (.boolR env.visible, s) else none
  | .set_visible _, s => if s.bound then some (.unitR, s) else none
  | .size, s => if s.bound then some (.sizeR env.winSize, s) else none
  | .set_size _ _, s => if s.bound then some (.unitR, s) else none
  | .position, s => if s.bound then some (.posR env.winPos, s) else none
  | .set_position _ _, s => if s.bound then some (.unitR, s) else none
  | .collection, s => some (.itemsR (collection s), s)
  | .collection_mut, s => some (.itemsR (collection_mut s), s)
  | .class_name, s => some (.nameR (some "ListBox"), s)
  | .flags, s => some (.flagsR (WS_VISIBLE, 0), s)
  | .forced_flags, s =>
    some (.styleR (LBS_HASSTRINGS ||| LBS_NOTIFY ||| WS_BORDER ||| WS_CHILD ||| WS_VSCROLL), s)

/-- C5 amended: on an unbound control, a public operation aborts exactly when
it is not one of collection, collection_mut, class_name, flags and
forced_flags; those five never touch the native handle and succeed even
while the control is unbound. -/
theorem c5_unbound_abort (env : NativeEnv) (disp : α → String) (op : PubOp α)
    (s : ListBoxState α) (hu : s.bound = false) :
    runPubOp env disp op s = none ↔
      (op ≠ PubOp.collection ∧ op ≠ PubOp.collection_mut ∧
       op ≠ PubOp.class_name ∧ op ≠ PubOp.flags ∧ op ≠ PubOp.forced_flags) := by
  cases op <;>
    simp [runPubOp, push, remove, selection, selection_string, set_selection,
      set_selection_string, sync, set_collection, len, collection, collection_mut, hu]

/-- Ambient native properties used by the C5 example states. -/
def envWit : NativeEnv :=
  ⟨none, false, true, true, (0, 0), (0, 0)⟩

/-- An unbound control whose host collection holds the single item 5. -/
def c5ubState : ListBoxState Nat :=
  ⟨false, [5], ⟨[], none⟩⟩

/-- C5 counterexample: collection and collection_mut on an unbound control do
not abort; they return the borrowed host collection. -/
theorem c5_counterexample :
    c5ubState.bound = false ∧
    runPubOp envWit (fun n => toString n) PubOp.collection c5ubState =
      some (PubResult.itemsR [5], c5ubState) ∧
    runPubOp envWit (fun n => toString n) PubOp.collection_mut c5ubState =
      some (PubResult.itemsR [5], c5ubState) :=
  ⟨rfl, rfl, rfl⟩

/-- Witness for C5 amended: push 3 on the unbound control aborts. -/
theorem c5_witness :
    runPubOp envWit (fun n => toString n) (PubOp.push 3) c5ubState = none :=
  (c5_unbound_abort envWit (fun n => toString n) (PubOp.push 3) c5ubState rfl).mpr (by decide)

/-
Event payload model of events.rs.  The tree-view variants are behind a
feature gate that is off in this excerpt and are not part of the model.
Each panic of an accessor is modelled as none.
-/

/-- Paint payload: the window handle painting will happen on. -/
structure PaintDataM where
  hwnd : Nat
deriving DecidableEq

/-- Tooltip payload behind the NMTTDISPINFOW pointer: the flag word and the
fixed 80-slot UTF-16 text buffer szText. -/
structure ToolTipTextDataM where
  uFlags : Nat
  szText : List Nat
deriving DecidableEq

/-- Drag-and-drop payload: the HDROP handle received with the drop. -/
structure DropFilesM where
  dropHandle : Nat
deriving DecidableEq

/-- Window-close payload: the boolean flag behind the pointer into the
dispatcher's frame. -/
structure WindowCloseDataM where
  closeFlag : Bool
deriving DecidableEq

/-- EventData: the tagged union of per-event payloads. -/
inductive EventDataM where
  | noData
  | onWindowClose (d : WindowCloseDataM)
  | onTooltipText (d : ToolTipTextDataM)
  | onChar (c : Char)
  | onKey (k : Nat)
  | onPaint (p : PaintDataM)
  | onMouseWheel (delta : Int)
  | onFileDrop (d : DropFilesM)
deriving DecidableEq

/-- EventData on_paint: the paint payload, or a panic on any other variant. -/
def on_paint : EventDataM → Option PaintDataM
  | .onPaint p => some p
  | _ => none

/-- EventData on_tooltip_text: the tooltip payload, or a panic otherwise. -/
def on_tooltip_text : EventDataM → Option ToolTipTextDataM
  | .onTooltipText d => some d
  | _ => none

/-- EventData on_file_drop: the drag-and-drop payload, or a panic otherwise. -/
def on_file_drop : EventDataM → Option DropFilesM
  | .onFileDrop d => some d
  | _ => none

/-- EventData on_key: the key code, or a panic on any other variant. -/
def on_key : EventDataM → Option Nat
  | .onKey k => some k
  | _ => none

/-- C7: each variant-specific accessor returns the payload on its matching
variant and aborts (never a default value) on every other variant. -/
theorem c7_accessors :
    (∀ p, on_paint (EventDataM.onPaint p) = some p) ∧
    (∀ t, on_tooltip_text (EventDataM.onTooltipText t) = some t) ∧
    (∀ f, on_file_drop (EventDataM.onFileDrop f) = some f) ∧
    (∀ k, on_key (EventDataM.onKey k) = some k) ∧
    (∀ d, (∀ p, d ≠ EventDataM.onPaint p) → on_paint d = none) ∧
    (∀ d, (∀ t, d ≠ EventDataM.onTooltipText t) → on_tooltip_text d = none) ∧
    (∀ d, (∀ f, d ≠ EventDataM.onFileDrop f) → on_file_drop d = none) ∧
    (∀ d, (∀ k, d ≠ EventDataM.onKey k) → on_key d = none) := by
  refine ⟨fun p => rfl, fun t => rfl, fun f => rfl, fun k => rfl, ?_, ?_, ?_, ?_⟩ <;>
    intro d hd <;> cases d <;> first
      | rfl
      | exact absurd rfl (hd _)

/-- Witness for C7: the key accessor on a key payload yields the code, the
paint accessor on the same payload aborts. -/
theorem c7_witness :
    on_key (EventDataM.onKey 13) = some 13 ∧ on_paint (EventDataM.onKey 13) = none :=
  ⟨c7_accessors.2.2.2.1 13,
   c7_accessors.2.2.2.2.1 (EventDataM.onKey 13) (fun p h => by cases h)⟩

/-- UTF-8 byte count of one character, as Rust str len counts it. -/
def charUtf8Len (c : Char) : Nat :=
  if c.toNat < 0x80 then 1
  else if c.toNat < 0x800 then 2
  else if c.toNat < 0x10000 then 3
  else 4

/-- UTF-8 byte count of a text, the value of Rust str len. -/
def utf8Len (l : List Char) : Nat :=
  (l.map charUtf8Len).sum

/-- Modelled from the spec: the String Marshaling collaborator (the win32
base_helper to_utf16, absent from this excerpt) converts host text to the
platform encoding, UTF-16 code units; one unit below the surrogate range,
a surrogate pair beyond it. -/
def charUtf16 (c : Char) : List Nat :=
  if c.toNat < 0x10000 then [c.toNat]
  else [0xD800 + (c.toNat - 0x10000) / 0x400, 0xDC00 + (c.toNat - 0x10000) % 0x400]

/-- UTF-16 code units of a text, without a terminating null. -/
def utf16Units (l : List Char) : List Nat :=
  (l.map charUtf16).flatten

/-- The 80-slot szText buffer after ToolTipTextData clear: all zero. -/
def clearBuf : List Nat :=
  List.replicate 80 0

/-- Copy the units over the start of the buffer, keeping the tail. -/
def writeUnits (buf units : List Nat) : List Nat :=
  units ++ buf.drop units.length

/-- ToolTipTextData set_text: when the Rust byte length of the text exceeds
79 the method returns without touching the buffer; otherwise it zeroes the
80-slot buffer and copies byte-length-many UTF-16 units of the marshalled
text (the marshalled vector carries the units plus a terminating null; a
copy count beyond its length would read out of bounds and is modelled as
none). -/
def set_text (t : ToolTipTextDataM) (text : List Char) : Option ToolTipTextDataM :=
  let text_len := utf8Len text
  if text_len > 79 then
    some t
  else
    let local_text := utf16Units text ++ [0]
    if text_len ≤ local_text.length then
      some ⟨t.uFlags, writeUnits clearBuf (local_text.take text_len)⟩
    else
      none

theorem length_le_utf8Len (l : List Char) : l.length ≤ utf8Len l := by
  induction l with
  | nil => simp [utf8Len]
  | cons c t ih =>
    have hc : 1 ≤ charUtf8Len c := by
      unfold charUtf8Len
      repeat' split
      all_goals omega
    unfold utf8Len at ih ⊢
    simp only [List.map_cons, List.sum_cons, List.length_cons]
    omega

theorem ascii_utf8Len (l : List Char) (h : ∀ c ∈ l, c.toNat < 128) :
    utf8Len l = l.length := by
  induction l with
  | nil => simp [utf8Len]
  | cons c t ih =>
    have hc : charUtf8Len c = 1 := by
      unfold charUtf8Len
      have := h c (List.mem_cons_self c t)
      simp only [if_pos (by omega : c.toNat < 0x80)]
    unfold utf8Len at ih ⊢
    simp only [List.map_cons, List.sum_cons, List.length_cons, hc]
    rw [ih (fun x hx => h x (List.mem_cons_of_mem c hx))]
    omega

theorem ascii_utf16Units (l : List Char) (h : ∀ c ∈ l, c.toNat < 128) :
    utf16Units l = l.map (fun c => c.toNat) := by
  induction l with
  | nil => simp [utf16Units]
  | cons c t ih =>
    have hc : charUtf16 c = [c.toNat] := by
      unfold charUtf16
      have := h c (List.mem_cons_self c t)
      simp only [if_pos (by omega : c.toNat < 0x10000)]
    unfold utf16Units at ih ⊢
    simp only [List.map_cons, List.flatten_cons, hc]
    rw [ih (fun x hx => h x (List.mem_cons_of_mem c hx))]
    rfl

theorem drop_replicate_zero (n m : Nat) :
    (List.replicate m (0 : Nat)).drop n = List.replicate (m - n) 0 := by
  induction n generalizing m with
  | zero => simp
  | succ n ih =>
    cases m with
    | zero => simp
    | succ m =>
      simp only [List.replicate_succ, List.drop_succ_cons, ih m]
      rw [Nat.succ_sub_succ]

/-- Prior buffer of the C8 counterexample: a leftover 65 in slot 0. -/
def c8exTooltip : ToolTipTextDataM :=
  ⟨0, 65 :: List.replicate 79 0⟩

/-- Forty copies of a two-byte character: 40 characters, 80 UTF-8 bytes. -/
def c8exText : List Char :=
  List.replicate 40 'é'

/-- C8 counterexample: a 40-character text (at most 79 characters) whose
UTF-8 byte length is 80 is silently rejected, so the buffer keeps its prior
content instead of being cleared and overwritten as the claim states. -/
theorem c8_counterexample :
    c8exText.length = 40 ∧
    utf8Len c8exText = 80 ∧
    set_text c8exTooltip c8exText = some c8exTooltip ∧
    c8exTooltip.szText ≠ writeUnits clearBuf (utf16Units c8exText) := by
  decide

/-- C8 amended: the length bound of set_text is 79 UTF-8 bytes, not 79
characters.  A text over 79 bytes (hence in particular any text over 79
characters) leaves the buffer untouched; an ASCII text of at most 79
characters (where bytes and characters coincide) is written after clearing,
so the buffer is exactly its code units padded with zeros. -/
theorem c8_amended (t : ToolTipTextDataM) (text : List Char) :
    (utf8Len text > 79 → set_text t text = some t) ∧
    (text.length > 79 → set_text t text = some t) ∧
    ((∀ c ∈ text, c.toNat < 128) → text.length ≤ 79 →
      set_text t text = some ⟨t.uFlags, utf16Units text ++ List.replicate (80 - text.length) 0⟩) := by
  refine ⟨?_, ?_, ?_⟩
  · intro hgt
    unfold set_text
    simp [hgt]
  · intro hgt
    have := length_le_utf8Len text
    unfold set_text
    simp only [if_pos (by omega : utf8Len text > 79)]
  · intro hA hlen
    have h8 : utf8Len text = text.length := ascii_utf8Len text hA
    have h16 : utf16Units text = text.map (fun c => c.toNat) := ascii_utf16Units text hA
    have h16len : (utf16Units text).length = text.length := by rw [h16]; simp
    unfold set_text
    simp only [h8]
    rw [if_neg (by omega : ¬ text.length > 79)]
    have hcond : text.length ≤ (utf16Units text ++ [0]).length := by
      rw [List.length_append, h16len]
      omega
    rw [if_pos hcond]
    have htake : (utf16Units text ++ [0]).take text.length = utf16Units text := by
      rw [List.take_left' h16len]
    rw [htake]
    unfold writeUnits clearBuf
    rw [h16len, drop_replicate_zero]

/-- Prior buffer of the C8 witness: every slot holds 7. -/
def c8witTooltip : ToolTipTextDataM :=
  ⟨0, List.replicate 80 7⟩

/-- Witness for C8 amended: writing the two-character ASCII text Hi clears
the buffer and stores its two code units followed by 78 zeros. -/
theorem c8_witness :
    set_text c8witTooltip ['H', 'i'] =
      some ⟨c8witTooltip.uFlags,
        utf16Units ['H', 'i'] ++ List.replicate (80 - (['H', 'i'] : List Char).length) 0⟩ :=
  (c8_amended c8witTooltip ['H', 'i']).2.2 (by decide) (by decide)

/-- A platform call a drag-and-drop payload can make: a drop-point query, a
file query (none models the counting query with index 0xFFFFFFFF, some i a
query about file i), or the resource release DragFinish. -/
inductive PlatformCall where
  | dragQueryPoint (h : Nat)
  | dragQueryFile (h : Nat) (idx : Option Nat)
  | dragFinish (h : Nat)
deriving DecidableEq

/-- The accessor methods of DropFiles. -/
inductive DropAccessor where
  | point
  | len
  | files
deriving DecidableEq

/-- Platform calls DropFiles files makes for one file: the size query and
the copying query. -/
def fileQueryCalls (h i : Nat) : List PlatformCall :=
  [.dragQueryFile h (some i), .dragQueryFile h (some i)]

/-- Platform calls of one DropFiles accessor: point queries the drop point,
len sends the counting query, files sends the counting query through len and
then, for each of the nfiles dropped files, a size query and a copy. -/
def accessorCalls (h nfiles : Nat) : DropAccessor → List PlatformCall
  | .point => [.dragQueryPoint h]
  | .len => [.dragQueryFile h none]
  | .files => .dragQueryFile h none :: ((List.range nfiles).map (fileQueryCalls h)).flatten

/-- Drop glue of DropFiles: on scope exit, DragFinish is sent once when the
handle is not null. -/
def dropGlue (h : Nat) : List PlatformCall :=
  if h ≠ 0 then [.dragFinish h] else []

/-- The platform calls of one dispatch owning a DropFiles payload: whatever
the accessor calls of the callback emit, followed, unconditionally on scope
exit, by the drop glue. -/
def dispatchTrace (h nfiles : Nat) (calls : List DropAccessor) : List PlatformCall :=
  ((calls.map (accessorCalls h nfiles)).flatten) ++ dropGlue h

theorem accessorCalls_no_dragFinish (h nfiles g : Nat) (a : DropAccessor) :
    PlatformCall.dragFinish g ∉ accessorCalls h nfiles a := by
  cases a <;>
    simp [accessorCalls, fileQueryCalls, List.mem_flatten, List.mem_map]

/-- C9: for a payload carrying a genuine (non-null) drop handle, every
dispatch trace contains the resource release DragFinish exactly once, no
matter which accessor methods the callback invoked, including none at all. -/
theorem c9_dragFinish_once (h nfiles : Nat) (calls : List DropAccessor) (hh : h ≠ 0) :
    (dispatchTrace h nfiles calls).count (PlatformCall.dragFinish h) = 1 := by
  unfold dispatchTrace
  rw [List.count_append]
  have h1 : ((calls.map (accessorCalls h nfiles)).flatten).count (PlatformCall.dragFinish h) = 0 := by
    rw [List.count_eq_zero]
    intro hmem
    rw [List.mem_flatten] at hmem
    obtain ⟨l, hl, hml⟩ := hmem
    rw [List.mem_map] at hl
    obtain ⟨a, _, rfl⟩ := hl
    exact accessorCalls_no_dragFinish h nfiles h a hml
  rw [h1]
  unfold dropGlue
  simp [hh]

/-- Witness for C9: a dispatch with handle 1 whose callback never touches
the payload still releases it exactly once. -/
theorem c9_witness :
    (dispatchTrace 1 0 []).count (PlatformCall.dragFinish 1) = 1 :=
  c9_dragFinish_once 1 0 [] (by decide)

/-- The reply of LB_GETTEXTLEN for a rendered row: its length in UTF-16
units, excluding the terminating null unit (the platform contract). -/
def lbGetTextLenReply (row : String) : Nat :=
  (utf16Units row.data).length

/-- The buffer capacity selection_string allocates: exactly the reply of
LB_GETTEXTLEN, with no extra slot. -/
def selectionBufferCapacity (row : String) : Nat :=
  lbGetTextLenReply row

/-- The number of UTF-16 units LB_GETTEXT writes into the receive buffer:
the row's units plus the terminating null unit (the platform contract). -/
def lbGetTextWriteCount (row : String) : Nat :=
  lbGetTextLenReply row + 1

/-- C10: the capacity selection_string allocates is never sufficient for the
units the native copy writes; the terminating null unit always lands one
slot past the end of the buffer (the sibling DropFiles files adds one to the
reported length for exactly this reason; selection_string does not). -/
theorem c10_buffer_overflow :
    (∀ row : String, selectionBufferCapacity row < lbGetTextWriteCount row) ∧
    selectionBufferCapacity "a" = 1 ∧
    lbGetTextWriteCount "a" = 2 := by
  refine ⟨fun row => Nat.lt_succ_self _, ?_, ?_⟩ <;> decide

end NWG
